import Mathlib

/-!
Verification of the in-memory client registry (`src/main.go`).

The program keeps a process-global map `clients : map[int]Client` guarded by a
mutex, and exposes three HTTP handlers:

* `addClientHandler`  (POST /addClient)    — lines 93-116
* `deleteClientHandler` (DELETE /deleteClient?id=..) — lines 119-143
* `getClientsHandler` (GET /getClients)    — lines 146-157

We embed the store as an association list with Go-map semantics (one value per
key; `mapFind`, `mapInsert`, `mapErase` model `m[k]`, `m[k] = v`, `delete(m, k)`),
the handlers as pure state-passing functions, `encoding/json` struct decoding as
`decodeClient` over a JSON value tree, and `strconv.Atoi` as `atoi`.  Iteration
order of the Go map is not observable through any claim here; the association
list order is therefore an inessential choice.
-/

/-- Address (main.go lines 18-21): the client's address value object. -/
structure Address where
  City : String
  Street : String
deriving DecidableEq

/-- Client (main.go lines 24-31).  Go's `time.Time` field `RegisterDate` is
modelled by its RFC3339 serialization text: the program never computes with the
timestamp, it only stores and echoes it. -/
structure Client where
  ID : Int
  Name : String
  Age : Int
  RegisterDate : String
  FavCoffee : String
  Address : Address
deriving DecidableEq

/-- The store state: the Go map `clients : map[int]Client` (main.go line 40),
as an association list with at most one entry per key in every reachable
state. -/
abbrev Store := List (Int × Client)

/-- Go map read `clients[k]` (the `value, exists` form): the value stored under
`k`, if any. -/
def mapFind (s : Store) (k : Int) : Option Client :=
  match s with
  | [] => none
  | (k', v) :: rest => if k' = k then some v else mapFind rest k

/-- Go map write `clients[k] = v`: replace the entry under `k` if present,
otherwise add one. -/
def mapInsert (s : Store) (k : Int) (v : Client) : Store :=
  match s with
  | [] => [(k, v)]
  | (k', v') :: rest => if k' = k then (k, v) :: rest else (k', v') :: mapInsert rest k v

/-- Go map removal `delete(clients, k)`. -/
def mapErase (s : Store) (k : Int) : Store :=
  match s with
  | [] => []
  | (k', v') :: rest => if k' = k then rest else (k', v') :: mapErase rest k

/-- The HTTP methods distinguished by the three handlers. -/
inductive HttpMethod where
  | get
  | post
  | delete
  | other
deriving DecidableEq

/-- The responses the three handlers can produce, by source line:
`created` 201 (line 114-115, echoing the stored client), `conflict` 409
(line 109), `badRequest` 400 (lines 101, 128), `methodNotAllowed` 405
(lines 95, 121, 148), `okText` 200 (lines 141-142, the deletion confirmation),
`notFound` 404 (line 136), `okJson` 200 (line 156, the serialized map). -/
inductive HttpResponse where
  | created (c : Client)
  | conflict
  | badRequest
  | methodNotAllowed
  | okText (msg : String)
  | notFound
  | okJson (m : Store)
deriving DecidableEq

/-- The HTTP status code each response is written with. -/
def statusCode : HttpResponse → Nat
  | .created _ => 201
  | .conflict => 409
  | .badRequest => 400
  | .methodNotAllowed => 405
  | .okText _ => 200
  | .notFound => 404
  | .okJson _ => 200

/-- JSON values, as `encoding/json` tokenizes a request body.  `num n` is an
integer literal in plain decimal form.  A literal with a fraction or exponent
part is not represented: it decodes into no field of `Client` (a decode error
in every typed position, skipped under an unknown key), which is exactly the
behaviour of the `bool` constructor at every position, so such bodies are
covered up to behavioural equivalence. -/
inductive Json where
  | null
  | bool (b : Bool)
  | num (n : Int)
  | str (s : String)
  | arr (elems : List Json)
  | obj (fields : List (String × Json))

/-- The RFC3339 text of Go's zero `time.Time`. -/
def timeZero : String := "0001-01-01T00:00:00Z"

/-- The zero `Address` value (Go's `Address{}`). -/
def zeroAddress : Address := ⟨"", ""⟩

/-- The zero `Client` value: what `var newClient Client` (main.go line 99)
declares before decoding. -/
def zeroClient : Client := ⟨0, "", 0, timeZero, "", zeroAddress⟩

/-- Decoding one JSON value into a Go `string` field holding `cur`:
a string replaces it, `null` keeps it, anything else is a decode error. -/
def decodeStringField (cur : String) : Json → Option String
  | .str s => some s
  | .null => some cur
  | _ => none

/-- Two decimal digits read as a number, or `none` when either character is
not a digit. -/
def digit2 (a b : Char) : Option Nat :=
  if a.isDigit && b.isDigit then some ((a.toNat - 48) * 10 + (b.toNat - 48))
  else none

/-- Gregorian leap-year rule, as Go's `time` package applies it. -/
def isLeapYear (y : Nat) : Bool :=
  (y % 4 == 0 && y % 100 != 0) || y % 400 == 0

/-- The number of days of month `m` in year `y`. -/
def daysInMonth (y m : Nat) : Nat :=
  if m == 2 then (if isLeapYear y then 29 else 28)
  else if m == 4 || m == 6 || m == 9 || m == 11 then 30
  else 31

/-- The RFC3339 numeric offset tail: `Z` exactly, or `±hh:mm` with
`hh ≤ 23` and `mm ≤ 59`, nothing trailing — lowercase `z` is rejected, as
Go's strict RFC3339 parser rejects it. -/
def validOffset : List Char → Bool
  | ['Z'] => true
  | [sign, h1, h2, ':', m1, m2] =>
    (sign == '+' || sign == '-') &&
      (match digit2 h1 h2, digit2 m1 m2 with
       | some hh, some mm => decide (hh ≤ 23) && decide (mm ≤ 59)
       | _, _ => false)
  | _ => false

/-- Optional fractional seconds then the offset: the fraction is introduced
by a period and holds at least one digit.  Go's strict RFC3339 parser
(`time.Time.UnmarshalJSON` since Go 1.20) rejects a comma separator
("sub-second separator must be a period"). -/
def validFracOffset : List Char → Bool
  | '.' :: rest =>
    !(rest.takeWhile Char.isDigit).isEmpty &&
      validOffset (rest.dropWhile Char.isDigit)
  | rest => validOffset rest

/-- The strict RFC3339 check `time.Time.UnmarshalJSON` performs on the quoted
string (Go's `parseStrictRFC3339`): `yyyy-mm-ddThh:mm:ss`, uppercase `T`,
month 1-12, day within the month's leap-aware length, hour ≤ 23, minute and
second ≤ 59, then optional fraction and the offset. -/
def isRFC3339 (s : String) : Bool :=
  match s.data with
  | y1 :: y2 :: y3 :: y4 :: '-' :: m1 :: m2 :: '-' :: d1 :: d2 :: 'T' ::
      h1 :: h2 :: ':' :: mi1 :: mi2 :: ':' :: s1 :: s2 :: rest =>
    match digit2 y1 y2, digit2 y3 y4, digit2 m1 m2, digit2 d1 d2,
        digit2 h1 h2, digit2 mi1 mi2, digit2 s1 s2 with
    | some yh, some yl, some mo, some da, some hh, some mi, some ss =>
      decide (1 ≤ mo) && decide (mo ≤ 12) &&
      decide (1 ≤ da) && decide (da ≤ daysInMonth (yh * 100 + yl) mo) &&
      decide (hh ≤ 23) && decide (mi ≤ 59) && decide (ss ≤ 59) &&
      validFracOffset rest
    | _, _, _, _, _, _, _ => false
  | _ => false

/-- One character of `encoding/json`'s field-name fold: ASCII letters fold to
lower case, and the only two non-ASCII code points whose simple case-fold
orbit reaches ASCII — long s U+017F and the Kelvin sign U+212A — fold to `s`
and `k`.  Every other rune compares only to itself against the pure-ASCII
struct tags, so mapping it to itself is exact. -/
def foldChar (c : Char) : Char :=
  if c.isUpper then c.toLower
  else if c.toNat == 0x17F then 's'
  else if c.toNat == 0x212A then 'k'
  else c

/-- `encoding/json`'s folded form of a field name. -/
def foldName (s : String) : String :=
  String.mk (s.data.map foldChar)

/-- Whether an object key selects the struct field tagged `tag`: an exact
match, or the case-insensitive fold match `encoding/json` falls back to.
No two tags of `Client` or `Address` share a fold, so per-key matching
against each tag in turn reproduces Go's field resolution. -/
def keyMatches (key tag : String) : Bool :=
  key == tag || foldName key == foldName tag

/-- Decoding one JSON value into a Go `int` field holding `cur`: Go's `int`
is 64 bits wide and a decimal literal outside its range is an
`UnmarshalTypeError`. -/
def decodeIntField (cur : Int) : Json → Option Int
  | .num n =>
    if -9223372036854775808 ≤ n ∧ n ≤ 9223372036854775807 then some n
    else none
  | .null => some cur
  | _ => none

/-- Decoding one JSON value into the `time.Time` field, modelled by its
RFC3339 text: `time.Time.UnmarshalJSON` requires a JSON string in strict
RFC3339 format (`isRFC3339`), errors on any other value, and treats `null`
as a no-op. -/
def decodeTimeField (cur : String) : Json → Option String
  | .str s => if isRFC3339 s then some s else none
  | .null => some cur
  | _ => none

/-- One `key: value` pair of an address object applied to the accumulator,
as `encoding/json` matches keys (exactly or case-insensitively) to the
`city`/`street` tags; unmatched keys are ignored and later duplicates
overwrite earlier ones. -/
def applyAddressField (a : Address) (kv : String × Json) : Option Address :=
  if keyMatches kv.1 "city" then
    (decodeStringField a.City kv.2).map fun x => { a with City := x }
  else if keyMatches kv.1 "street" then
    (decodeStringField a.Street kv.2).map fun x => { a with Street := x }
  else some a

/-- Decoding one JSON value into the nested `Address` struct field. -/
def decodeAddressField (cur : Address) : Json → Option Address
  | .null => some cur
  | .obj fields => fields.foldlM applyAddressField cur
  | _ => none

/-- One `key: value` pair of the client object applied to the accumulator,
matching the json tags `id`, `name`, `age`, `registerDate`, `favCoffee`,
`address` exactly or case-insensitively as `encoding/json` does; unmatched
keys are ignored. -/
def applyClientField (c : Client) (kv : String × Json) : Option Client :=
  if keyMatches kv.1 "id" then
    (decodeIntField c.ID kv.2).map fun x => { c with ID := x }
  else if keyMatches kv.1 "name" then
    (decodeStringField c.Name kv.2).map fun x => { c with Name := x }
  else if keyMatches kv.1 "age" then
    (decodeIntField c.Age kv.2).map fun x => { c with Age := x }
  else if keyMatches kv.1 "registerDate" then
    (decodeTimeField c.RegisterDate kv.2).map fun x => { c with RegisterDate := x }
  else if keyMatches kv.1 "favCoffee" then
    (decodeStringField c.FavCoffee kv.2).map fun x => { c with FavCoffee := x }
  else if keyMatches kv.1 "address" then
    (decodeAddressField c.Address kv.2).map fun x => { c with Address := x }
  else some c

/-- `json.NewDecoder(r.Body).Decode(&newClient)` (main.go line 100) on a
tokenized body: an object fills the zero value field by field (missing fields
keep their zero values), `null` leaves the zero value intact, and any other
value fails to decode into a struct.  The fold stops at the first failing
field where Go saves the first error and keeps scanning; `Decode` returns an
error exactly when some field fails, so the error boundary coincides and the
successfully decoded value (no failing field) is identical. -/
def decodeClient : Json → Option Client
  | .null => some zeroClient
  | .obj fields => fields.foldlM applyClientField zeroClient
  | _ => none

/-- Digit run of `strconv.Atoi`: all characters must be decimal digits and at
least one must be present. -/
def digitsToNat : List Char → Option Nat
  | [] => none
  | cs =>
    if cs.all Char.isDigit then
      some (cs.foldl (fun acc c => acc * 10 + (c.toNat - 48)) 0)
    else none

/-- `strconv.Atoi` (main.go line 126): an optional sign followed by at least
one decimal digit; anything else (the empty string included) is an error.
The 64-bit range check is elided: no claim involves overflow. -/
def atoi (s : String) : Option Int :=
  match s.data with
  | [] => none
  | '+' :: rest => (digitsToNat rest).map Int.ofNat
  | '-' :: rest => (digitsToNat rest).map fun n => -(n : Int)
  | cs => (digitsToNat cs).map Int.ofNat

/-- The store operation Add (main.go lines 108-115, the body of
`addClientHandler` once the mutex is held and `newClient` is decoded):
reject a duplicate id without mutating, otherwise insert under the client's
own id and echo the stored client with 201. -/
def addClient (s : Store) (c : Client) : HttpResponse × Store :=
  if (mapFind s c.ID).isSome then (.conflict, s)
  else (.created c, mapInsert s c.ID c)

/-- The plain-text deletion confirmation (main.go line 142). -/
def deleteMessage (id : Int) : String :=
  "Клиент с ID " ++ toString id ++ " успешно удален"

/-- The store operation Delete (main.go lines 135-142, the body of
`deleteClientHandler` once the mutex is held and `id` is parsed): 404 when the
id is absent, otherwise remove the entry and confirm with 200. -/
def deleteClient (s : Store) (id : Int) : HttpResponse × Store :=
  if (mapFind s id).isSome then (.okText (deleteMessage id), mapErase s id)
  else (.notFound, s)

/-- `addClientHandler` (main.go lines 93-116).  The request is its method and
the tokenization of its body (`none` for a body that is not well-formed JSON,
empty bodies included — `Decode` then returns a non-nil error). -/
def addClientHandler (s : Store) (method : HttpMethod) (body : Option Json) :
    HttpResponse × Store :=
  if method ≠ .post then (.methodNotAllowed, s)
  else
    match body.bind decodeClient with
    | none => (.badRequest, s)
    | some c => addClient s c

/-- `deleteClientHandler` (main.go lines 119-143).  The request is its method
and the `id` query parameter text (`Query().Get` yields `""` when absent, and
`atoi "" = none`, so the source's `err != nil || idStr == ""` test is exactly
`atoi idStr = none`). -/
def deleteClientHandler (s : Store) (method : HttpMethod) (idStr : String) :
    HttpResponse × Store :=
  if method ≠ .delete then (.methodNotAllowed, s)
  else
    match atoi idStr with
    | none => (.badRequest, s)
    | some id => deleteClient s id

/-- `getClientsHandler` (main.go lines 146-157): serialize the current map as
the response; the store is not written. -/
def getClientsHandler (s : Store) (method : HttpMethod) : HttpResponse × Store :=
  if method ≠ .get then (.methodNotAllowed, s)
  else (.okJson s, s)

/-- One store operation, as issued by a request that reached the store
(method accepted, body or query parsed). -/
inductive Op where
  | add (c : Client)
  | del (id : Int)
  | list

/-- The store state after one operation. -/
def applyOp (s : Store) : Op → Store
  | .add c => (addClient s c).2
  | .del id => (deleteClient s id).2
  | .list => (getClientsHandler s .get).2

/-- The store reached by a sequence of operations from the empty map the
process starts with (main.go line 40). -/
def execOps (ops : List Op) : Store :=
  ops.foldl applyOp []

/-- Keys of the store are pairwise distinct. -/
def nodupKeys (s : Store) : Prop :=
  (s.map Prod.fst).Nodup

instance (s : Store) : Decidable (nodupKeys s) := by
  unfold nodupKeys; infer_instance

/-- Every map key equals the `ID` field of the record stored under it. -/
def idConsistent (s : Store) : Prop :=
  ∀ p ∈ s, (Prod.snd p).ID = p.1

/-- The sample client of the spec's end-to-end example (section 8). -/
def anna : Client :=
  ⟨1, "Anna", 30, "2024-01-01T00:00:00Z", "Latte", ⟨"Oslo", "Main St"⟩⟩

/-- A sample client with a negative id. -/
def negClient : Client :=
  ⟨-3, "Noa", 22, "2022-06-01T12:00:00Z", "Mocha", ⟨"Bergen", "Side St"⟩⟩

theorem mapFind_insert_self (s : Store) (k : Int) (v : Client) :
    mapFind (mapInsert s k v) k = some v := by
  induction s with
  | nil => simp [mapInsert, mapFind]
  | cons p rest ih =>
    obtain ⟨k₁, v₁⟩ := p
    by_cases h1 : k₁ = k <;> simp [mapInsert, mapFind, h1, ih]

theorem mapFind_insert_of_ne (s : Store) (k k' : Int) (v : Client) (h : k' ≠ k) :
    mapFind (mapInsert s k' v) k = mapFind s k := by
  induction s with
  | nil => simp [mapInsert, mapFind, h]
  | cons p rest ih =>
    obtain ⟨k₁, v₁⟩ := p
    by_cases h1 : k₁ = k'
    · simp [mapInsert, mapFind, h1, h]
    · simp [mapInsert, mapFind, h1, ih]

theorem mapErase_insert (s : Store) (k : Int) (v : Client) (h : mapFind s k = none) :
    mapErase (mapInsert s k v) k = s := by
  induction s with
  | nil => simp [mapInsert, mapErase]
  | cons p rest ih =>
    obtain ⟨k₁, v₁⟩ := p
    simp only [mapFind] at h
    by_cases h1 : k₁ = k
    · rw [if_pos h1] at h; cases h
    · rw [if_neg h1] at h
      simp [mapInsert, mapErase, h1, ih h]

theorem mapFind_erase_of_ne (s : Store) (k k' : Int) (h : k' ≠ k) :
    mapFind (mapErase s k') k = mapFind s k := by
  induction s with
  | nil => simp [mapErase]
  | cons p rest ih =>
    obtain ⟨k₁, v₁⟩ := p
    by_cases h1 : k₁ = k'
    · simp [mapErase, mapFind, h1, h]
    · simp [mapErase, mapFind, h1, ih]

theorem mapFind_eq_none_iff (s : Store) (k : Int) :
    mapFind s k = none ↔ k ∉ s.map Prod.fst := by
  induction s with
  | nil => simp [mapFind]
  | cons p rest ih =>
    obtain ⟨k₁, v₁⟩ := p
    simp only [mapFind, List.map_cons, List.mem_cons]
    by_cases h1 : k₁ = k
    · simp [h1]
    · rw [if_neg h1, ih]
      constructor
      · intro hnm
        rintro (he | hm)
        · exact h1 he.symm
        · exact hnm hm
      · intro hnm hm
        exact hnm (Or.inr hm)

theorem mapFind_erase_self (s : Store) (k : Int) (h : nodupKeys s) :
    mapFind (mapErase s k) k = none := by
  induction s with
  | nil => simp [mapErase, mapFind]
  | cons p rest ih =>
    obtain ⟨k₁, v₁⟩ := p
    simp only [nodupKeys, List.map_cons, List.nodup_cons] at h
    by_cases h1 : k₁ = k
    · simp only [mapErase, if_pos h1]
      rw [mapFind_eq_none_iff, ← h1]
      exact h.1
    · simp only [mapErase, if_neg h1, mapFind, if_neg h1]
      exact ih h.2

theorem mapErase_sublist (s : Store) (k : Int) : List.Sublist (mapErase s k) s := by
  induction s with
  | nil => simp [mapErase]
  | cons p rest ih =>
    obtain ⟨k₁, v₁⟩ := p
    by_cases h1 : k₁ = k
    · simp only [mapErase, if_pos h1]
      exact List.sublist_cons_self _ _
    · simp only [mapErase, if_neg h1]
      exact List.Sublist.cons₂ _ ih

theorem nodupKeys_mapErase (s : Store) (k : Int) (h : nodupKeys s) :
    nodupKeys (mapErase s k) :=
  List.Nodup.sublist (List.Sublist.map Prod.fst (mapErase_sublist s k)) h

theorem keys_mapInsert_of_absent (s : Store) (k : Int) (v : Client)
    (h : mapFind s k = none) :
    (mapInsert s k v).map Prod.fst = s.map Prod.fst ++ [k] := by
  induction s with
  | nil => simp [mapInsert]
  | cons p rest ih =>
    obtain ⟨k₁, v₁⟩ := p
    simp only [mapFind] at h
    by_cases h1 : k₁ = k
    · rw [if_pos h1] at h; cases h
    · rw [if_neg h1] at h
      simp [mapInsert, h1, ih h]

theorem nodupKeys_applyOp (s : Store) (op : Op) (h : nodupKeys s) :
    nodupKeys (applyOp s op) := by
  cases op with
  | add c =>
    by_cases hf : (mapFind s c.ID).isSome
    · simpa [applyOp, addClient, hf] using h
    · have hn : mapFind s c.ID = none := Option.not_isSome_iff_eq_none.mp hf
      have he : applyOp s (.add c) = mapInsert s c.ID c := by
        simp [applyOp, addClient, hf]
      rw [he]
      unfold nodupKeys
      rw [keys_mapInsert_of_absent s c.ID c hn, List.nodup_append]
      refine ⟨h, List.nodup_singleton _, ?_⟩
      intro a ha hb
      rw [List.mem_singleton] at hb
      subst hb
      exact (mapFind_eq_none_iff s c.ID).mp hn ha
  | del id =>
    by_cases hf : (mapFind s id).isSome
    · have he : applyOp s (.del id) = mapErase s id := by
        simp [applyOp, deleteClient, hf]
      rw [he]
      exact nodupKeys_mapErase s id h
    · simpa [applyOp, deleteClient, hf] using h
  | list => simpa [applyOp, getClientsHandler] using h

theorem nodupKeys_foldl (ops : List Op) (s : Store) (h : nodupKeys s) :
    nodupKeys (ops.foldl applyOp s) := by
  induction ops generalizing s with
  | nil => exact h
  | cons op rest ih => exact ih _ (nodupKeys_applyOp s op h)

theorem nodupKeys_execOps (ops : List Op) : nodupKeys (execOps ops) :=
  nodupKeys_foldl ops [] (by simp [nodupKeys])

theorem mem_mapInsert (s : Store) (k : Int) (v : Client) (p : Int × Client)
    (h : p ∈ mapInsert s k v) : p ∈ s ∨ p = (k, v) := by
  induction s with
  | nil =>
    simp only [mapInsert, List.mem_singleton] at h
    exact Or.inr h
  | cons q rest ih =>
    obtain ⟨k₁, v₁⟩ := q
    by_cases h1 : k₁ = k
    · simp only [mapInsert, if_pos h1] at h
      rcases List.mem_cons.mp h with h2 | h2
      · exact Or.inr h2
      · exact Or.inl (List.mem_cons_of_mem _ h2)
    · simp only [mapInsert, if_neg h1] at h
      rcases List.mem_cons.mp h with h2 | h2
      · exact Or.inl (by rw [h2]; exact List.mem_cons_self _ _)
      · rcases ih h2 with h3 | h3
        · exact Or.inl (List.mem_cons_of_mem _ h3)
        · exact Or.inr h3

theorem mem_of_mem_mapErase (s : Store) (k : Int) (p : Int × Client)
    (h : p ∈ mapErase s k) : p ∈ s :=
  (mapErase_sublist s k).subset h

theorem mapFind_mem (s : Store) (k : Int) (v : Client) (h : mapFind s k = some v) :
    (k, v) ∈ s := by
  induction s with
  | nil => simp [mapFind] at h
  | cons p rest ih =>
    obtain ⟨k₁, v₁⟩ := p
    simp only [mapFind] at h
    by_cases h1 : k₁ = k
    · rw [if_pos h1] at h
      obtain rfl : v₁ = v := by injection h
      rw [← h1]
      exact List.mem_cons_self _ _
    · rw [if_neg h1] at h
      exact List.mem_cons_of_mem _ (ih h)

theorem idConsistent_applyOp (s : Store) (op : Op) (h : idConsistent s) :
    idConsistent (applyOp s op) := by
  cases op with
  | add c =>
    by_cases hf : (mapFind s c.ID).isSome
    · simpa [applyOp, addClient, hf] using h
    · have he : applyOp s (.add c) = mapInsert s c.ID c := by
        simp [applyOp, addClient, hf]
      rw [he]
      intro p hp
      rcases mem_mapInsert s c.ID c p hp with h2 | h2
      · exact h p h2
      · rw [h2]
  | del id =>
    by_cases hf : (mapFind s id).isSome
    · have he : applyOp s (.del id) = mapErase s id := by
        simp [applyOp, deleteClient, hf]
      rw [he]
      intro p hp
      exact h p (mem_of_mem_mapErase s id p hp)
    · simpa [applyOp, deleteClient, hf] using h
  | list => simpa [applyOp, getClientsHandler] using h

theorem idConsistent_foldl (ops : List Op) (s : Store) (h : idConsistent s) :
    idConsistent (ops.foldl applyOp s) := by
  induction ops generalizing s with
  | nil => exact h
  | cons op rest ih => exact ih _ (idConsistent_applyOp s op h)

theorem idConsistent_execOps (ops : List Op) : idConsistent (execOps ops) :=
  idConsistent_foldl ops [] (by intro p hp; cases hp)

theorem mapFind_applyOp_stable (s : Store) (op : Op) (k : Int) (v v' : Client)
    (hn : nodupKeys s) (h1 : mapFind s k = some v)
    (h2 : mapFind (applyOp s op) k = some v') : v' = v := by
  cases op with
  | add c =>
    by_cases hf : (mapFind s c.ID).isSome
    · rw [show applyOp s (.add c) = s by simp [applyOp, addClient, hf]] at h2
      rw [h1] at h2
      injection h2 with hh
      exact hh.symm
    · have hne : c.ID ≠ k := by
        intro e
        rw [e, h1] at hf
        exact hf rfl
      rw [show applyOp s (.add c) = mapInsert s c.ID c by
            simp [applyOp, addClient, hf]] at h2
      rw [mapFind_insert_of_ne s k c.ID c hne, h1] at h2
      injection h2 with hh
      exact hh.symm
  | del id =>
    by_cases hf : (mapFind s id).isSome
    · rw [show applyOp s (.del id) = mapErase s id by
            simp [applyOp, deleteClient, hf]] at h2
      by_cases hk : id = k
      · rw [hk, mapFind_erase_self s k hn] at h2
        cases h2
      · rw [mapFind_erase_of_ne s k id hk, h1] at h2
        injection h2 with hh
        exact hh.symm
    · rw [show applyOp s (.del id) = s by simp [applyOp, deleteClient, hf]] at h2
      rw [h1] at h2
      injection h2 with hh
      exact hh.symm
  | list =>
    rw [show applyOp s .list = s by simp [applyOp, getClientsHandler]] at h2
    rw [h1] at h2
    injection h2 with hh
    exact hh.symm

/-- C1: for every store state and every client whose id is already present,
Add fails with DuplicateID (HTTP 409) and the store is unchanged — the
previously stored record is still present with all its fields intact and no
entry is added or removed. -/
theorem add_duplicate_rejected (s : Store) (c c₀ : Client)
    (h : mapFind s c.ID = some c₀) :
    addClient s c = (.conflict, s) ∧
    statusCode (addClient s c).1 = 409 ∧
    mapFind (addClient s c).2 c.ID = some c₀ := by
  simp [addClient, h, statusCode]

/-- Witness for C1 at the spec's example client. -/
theorem add_duplicate_rejected_witness :
    addClient [((1 : Int), anna)] anna = (.conflict, [((1 : Int), anna)]) ∧
    statusCode (addClient [((1 : Int), anna)] anna).1 = 409 ∧
    mapFind (addClient [((1 : Int), anna)] anna).2 anna.ID = some anna :=
  add_duplicate_rejected [((1 : Int), anna)] anna anna (by decide)

/-- C2: for every client whose id is absent, Add succeeds with HTTP 201,
returns the stored client unchanged, and a subsequent List contains an entry
equal to it in all fields. -/
theorem add_roundtrip (s : Store) (c : Client) (h : mapFind s c.ID = none) :
    (addClient s c).1 = .created c ∧
    statusCode (addClient s c).1 = 201 ∧
    (getClientsHandler (addClient s c).2 .get).1 = .okJson (mapInsert s c.ID c) ∧
    mapFind (addClient s c).2 c.ID = some c := by
  simp [addClient, h, statusCode, getClientsHandler, mapFind_insert_self]

/-- Witness for C2: Add on the empty store at the spec's example client. -/
theorem add_roundtrip_witness :
    (addClient [] anna).1 = .created anna ∧
    statusCode (addClient [] anna).1 = 201 ∧
    (getClientsHandler (addClient [] anna).2 .get).1 = .okJson (mapInsert [] anna.ID anna) ∧
    mapFind (addClient [] anna).2 anna.ID = some anna :=
  add_roundtrip [] anna (by decide)

/-- C3: for every store state and every id with no entry (the empty store
included), Delete fails with NotFound (HTTP 404) and the store is unchanged. -/
theorem delete_absent_not_found (s : Store) (id : Int) (h : mapFind s id = none) :
    deleteClient s id = (.notFound, s) ∧
    statusCode (deleteClient s id).1 = 404 := by
  simp [deleteClient, h, statusCode]

/-- Witness for C3 at the empty store. -/
theorem delete_absent_not_found_witness :
    deleteClient [] 1 = (.notFound, []) ∧
    statusCode (deleteClient [] 1).1 = 404 :=
  delete_absent_not_found [] 1 (by decide)

/-- C4: after a successful Add(c), Delete(c.ID) succeeds with HTTP 200 and a
confirmation containing the id, removes the entry — a subsequent List has no
entry under c.ID — and a second Delete(c.ID) fails with NotFound. -/
theorem add_then_delete (s : Store) (c : Client) (h : mapFind s c.ID = none) :
    (deleteClient (addClient s c).2 c.ID).1 = .okText (deleteMessage c.ID) ∧
    statusCode (deleteClient (addClient s c).2 c.ID).1 = 200 ∧
    deleteMessage c.ID = "Клиент с ID " ++ toString c.ID ++ " успешно удален" ∧
    (deleteClient (addClient s c).2 c.ID).2 = s ∧
    mapFind (deleteClient (addClient s c).2 c.ID).2 c.ID = none ∧
    (deleteClient (deleteClient (addClient s c).2 c.ID).2 c.ID).1 = .notFound := by
  have hins : (addClient s c).2 = mapInsert s c.ID c := by
    simp [addClient, h]
  have hfound : mapFind (mapInsert s c.ID c) c.ID = some c := mapFind_insert_self s c.ID c
  have hdel : deleteClient (mapInsert s c.ID c) c.ID =
      (.okText (deleteMessage c.ID), mapErase (mapInsert s c.ID c) c.ID) := by
    simp [deleteClient, hfound]
  have hback : mapErase (mapInsert s c.ID c) c.ID = s := mapErase_insert s c.ID c h
  rw [hins, hdel, hback]
  exact ⟨rfl, rfl, rfl, rfl, h, by simp [deleteClient, h]⟩

/-- Witness for C4 at the empty store and the spec's example client. -/
theorem add_then_delete_witness :
    (deleteClient (addClient [] anna).2 anna.ID).1 = .okText (deleteMessage anna.ID) ∧
    statusCode (deleteClient (addClient [] anna).2 anna.ID).1 = 200 ∧
    deleteMessage anna.ID = "Клиент с ID " ++ toString anna.ID ++ " успешно удален" ∧
    (deleteClient (addClient [] anna).2 anna.ID).2 = [] ∧
    mapFind (deleteClient (addClient [] anna).2 anna.ID).2 anna.ID = none ∧
    (deleteClient (deleteClient (addClient [] anna).2 anna.ID).2 anna.ID).1 = .notFound :=
  add_then_delete [] anna (by decide)

/-- C5: in every store reachable by a sequence of operations from the empty
store there is at most one client per id, and no operation ever changes the
fields of a record that stays stored: a key that maps to a record both before
and after an operation maps to the identical record. -/
theorem store_unique_and_immutable (ops : List Op) (op : Op) (k : Int)
    (v v' : Client)
    (h1 : mapFind (execOps ops) k = some v)
    (h2 : mapFind (applyOp (execOps ops) op) k = some v') :
    nodupKeys (execOps ops) ∧ v' = v :=
  ⟨nodupKeys_execOps ops,
   mapFind_applyOp_stable (execOps ops) op k v v' (nodupKeys_execOps ops) h1 h2⟩

/-- Witness for C5: one Add then a List leaves the record untouched. -/
theorem store_unique_and_immutable_witness :
    nodupKeys (execOps [Op.add anna]) ∧ anna = anna :=
  store_unique_and_immutable [Op.add anna] Op.list 1 anna anna
    (by decide) (by decide)

/-- C6: List never fails and has no side effects — for every store state and
method the store is returned exactly as it was, and a GET answers 200 with
the snapshot of all stored clients keyed by id. -/
theorem list_snapshot_pure (s : Store) (method : HttpMethod) :
    (getClientsHandler s method).2 = s ∧
    getClientsHandler s .get = (.okJson s, s) ∧
    statusCode (getClientsHandler s .get).1 = 200 := by
  refine ⟨?_, by simp [getClientsHandler, statusCode], by simp [getClientsHandler, statusCode]⟩
  unfold getClientsHandler
  split <;> rfl

/-- C7: a POST to /addClient answers 400 exactly when the body fails to decode
as a Client, and in that case the store is unchanged. -/
theorem add_malformed_bad_request (s : Store) (body : Option Json) :
    ((addClientHandler s .post body).1 = .badRequest ↔ body.bind decodeClient = none) ∧
    (body.bind decodeClient = none → addClientHandler s .post body = (.badRequest, s)) := by
  cases hb : body.bind decodeClient with
  | none => simp [addClientHandler, hb]
  | some c =>
    have hm : addClientHandler s .post body = addClient s c := by
      simp [addClientHandler, hb]
    rw [hm]
    constructor
    · simp only [reduceCtorEq, iff_false]
      unfold addClient
      split <;> simp
    · intro h
      cases h

/-- Witness for C7: a bare number is not a Client object, so the handler
answers 400 and leaves the empty store empty. -/
theorem add_malformed_bad_request_witness :
    addClientHandler [] .post (some (Json.num 5)) = (.badRequest, []) :=
  (add_malformed_bad_request [] (some (Json.num 5))).2 (by decide)

/-- C9: in every reachable store state, every map key equals the ID field of
the record stored under it. -/
theorem store_key_matches_id (ops : List Op) (k : Int) (v : Client)
    (h : mapFind (execOps ops) k = some v) : v.ID = k :=
  idConsistent_execOps ops (k, v) (mapFind_mem (execOps ops) k v h)

/-- Witness for C9 after one Add. -/
theorem store_key_matches_id_witness : anna.ID = 1 :=
  store_key_matches_id [Op.add anna] 1 anna (by decide)

/-- C10: Add constrains the id only by uniqueness — any id, zero or negative,
is accepted and stored; a JSON body that parses but omits fields (the empty
object) is accepted with zero-valued fields and stored under id 0; Delete
accepts any integer id, zero and negatives included. -/
theorem add_delete_no_id_constraint (s t : Store) (c : Client) (id : Int)
    (h : mapFind s c.ID = none) (h2 : mapFind t id = none) :
    (addClient s c).1 = .created c ∧
    mapFind (addClient s c).2 c.ID = some c ∧
    decodeClient (Json.obj []) = some zeroClient ∧
    zeroClient.ID = 0 ∧
    addClientHandler [] .post (some (Json.obj [])) =
      (.created zeroClient, [((0 : Int), zeroClient)]) ∧
    atoi "0" = some 0 ∧
    atoi "-7" = some (-7) ∧
    deleteClientHandler [] .delete "-7" = (.notFound, []) ∧
    (deleteClient t id).1 = .notFound := by
  refine ⟨?_, ?_, by decide, by decide, by decide, by decide, by decide, by decide, ?_⟩
  · simp [addClient, h]
  · simp [addClient, h, mapFind_insert_self]
  · simp [deleteClient, h2]

/-- Witness for C10 at a negative-id client and a negative Delete id. -/
theorem add_delete_no_id_constraint_witness :
    (addClient [] negClient).1 = .created negClient ∧
    mapFind (addClient [] negClient).2 negClient.ID = some negClient ∧
    decodeClient (Json.obj []) = some zeroClient ∧
    zeroClient.ID = 0 ∧
    addClientHandler [] .post (some (Json.obj [])) =
      (.created zeroClient, [((0 : Int), zeroClient)]) ∧
    atoi "0" = some 0 ∧
    atoi "-7" = some (-7) ∧
    deleteClientHandler [] .delete "-7" = (.notFound, []) ∧
    (deleteClient [] (-7)).1 = .notFound :=
  add_delete_no_id_constraint [] [] negClient (-7) (by decide) (by decide)
